import Mathlib

/-!
Verification of the `python_perf_env` evaluator (src/python_perf_env/core.py)
against its natural-language specification.

Shallow embedding conventions:
* Python strings are `List Char`; a literal `"…".data` is the char list of the
  corresponding Python literal.
* Python numbers in the configuration and in measurements are `ℚ` (exact
  rationals standing for Python ints/floats); byte counts are `ℤ`.
* The behaviour of the untrusted submitted program (what `exec`/`eval`
  raise or return, what `tracemalloc`/`cProfile` measure) is an oracle
  record `SubmissionBehavior` passed to `step`; the harness logic itself —
  validation, control flow, reward arithmetic, report assembly — is
  translated from the source.
* A Python `assert` failure or uncaught exception escaping a method is
  modelled as the method returning `none`.
-/

namespace PerfEnv

/-- Python `int(q)` on a rational: truncation toward zero (identity on integers). -/
def pyInt (q : ℚ) : ℤ := if q < 0 then -((-q).floor) else q.floor

/-- Python substring containment `needle in hay` (`str.__contains__`). -/
def pyContains (needle hay : List Char) : Bool :=
  match hay with
  | [] => needle.isEmpty
  | _ :: rest => needle.isPrefixOf hay || pyContains needle rest

/-- Python `s.split(sep)` for a non-empty separator: split on each
non-overlapping occurrence of `sep`, scanning left to right, keeping empty
parts.  (`rest.drop (sep.length - 1)` is `(c :: rest).drop sep.length` for
non-empty `sep`.) -/
def pySplit (sep : List Char) : List Char → List (List Char)
  | [] => [[]]
  | c :: rest =>
    if sep.isPrefixOf (c :: rest) then
      [] :: pySplit sep (rest.drop (sep.length - 1))
    else
      match pySplit sep rest with
      | [] => [[c]]
      | hd :: tl => (c :: hd) :: tl
termination_by s => s.length
decreasing_by
  all_goals simp only [List.length_drop, List.length_cons]
  all_goals omega

/-- No occurrence of `sep` starts strictly inside `x` when `x` is followed by
`z`: every non-empty tail of `x`, continued by `z`, fails to start with `sep`
(used to reason about `pySplit`). -/
def NoPre {α : Type} (sep x z : List α) : Prop :=
  ∀ ℓ, ℓ <:+ x → ℓ ≠ [] → ¬ sep <+: ℓ ++ z

/-- The configuration dictionary.  Keys read with `config[...]` in
`SimpleEvaluator.__init__` are mandatory fields; keys read with
`config.get(...)` or guarded by `in config` are `Option` fields. -/
structure Config where
  max_input_len : ℕ
  max_time_cost : ℚ
  max_memory_cost : ℚ
  entry_point : Option (List Char)
  time_weight : Option ℚ
  memory_weight : Option ℚ
  exception_reward : ℚ
  unittest : Option (List Char) := none
deriving DecidableEq, Repr

/-- The `DEFAULT_CONFIG` dictionary from core.py. -/
def DEFAULT_CONFIG : Config :=
  { max_input_len := 32000
    max_time_cost := 60
    max_memory_cost := 4 * (1024 * 1024 * 1024)
    entry_point := some ("env_main".data)
    time_weight := none
    memory_weight := none
    exception_reward := -9 }

/-- The attributes a successfully constructed `SimpleEvaluator` carries
(`action_space`/`observation_space` are structural `Text` spaces and carry no
information beyond `max_input_len`, which we keep). -/
structure SimpleEvaluator where
  max_input_len : ℕ
  entry_point : List Char
  max_time_cost : ℚ
  max_memory_cost : ℤ
  time_weight : ℚ
  memory_weight : ℚ
  exception_reward : ℚ
  reward : ℚ
deriving DecidableEq, Repr

/-- The weight pair selected in `__init__`: defaults `(1, 1)`, overwritten
only when BOTH `"time_weight"` and `"memory_weight"` are in the config. -/
def weightsOf (config : Config) : ℚ × ℚ :=
  match config.time_weight, config.memory_weight with
  | some t, some m => (t, m)
  | _, _ => (1, 1)

/-- Attribute `self.entry_point`: `config.get("entry_point")`, defaulting to
`DEFAULT_CONFIG["entry_point"]` when absent. -/
def entryPointOf (config : Config) : List Char :=
  config.entry_point.getD ("env_main".data)

/-- Scaled penalty `self.exception_reward = config["exception_reward"] * max(self.time_weight, self.memory_weight)`. -/
def scaledExceptionReward (config : Config) : ℚ :=
  config.exception_reward * max (weightsOf config).1 (weightsOf config).2

/-- Constructor `SimpleEvaluator.__init__`: returns the constructed evaluator, or `none`
when one of the `assert` statements fails (the construction raises). -/
def SimpleEvaluator.init (config : Config) : Option SimpleEvaluator :=
  if scaledExceptionReward config < 0
      ∧ 0 < min (weightsOf config).1 (weightsOf config).2
      ∧ 0 < pyInt config.max_memory_cost
      ∧ 0 < config.max_time_cost
      ∧ 0 < (entryPointOf config).length
      ∧ 8 + (entryPointOf config).length < config.max_input_len then
    some { max_input_len := config.max_input_len
           entry_point := entryPointOf config
           max_time_cost := config.max_time_cost
           max_memory_cost := pyInt config.max_memory_cost
           time_weight := (weightsOf config).1
           memory_weight := (weightsOf config).2
           exception_reward := scaledExceptionReward config
           reward := 0 }
  else none

/-- Oracle describing how one submitted program behaves under the harness in
one `step` call: whether `exec(action, locals())` raises (with which rendered
traceback), whether each of the two invocations of the entry point raises,
the `str()` of the first invocation's return value, the `tracemalloc` peak,
the rendered `pstats` report, and the result of
`float(time_usage.split('function calls in ')[1].split(' ')[0])`
(`none` when that expression raises, i.e. the aggregate cannot be parsed). -/
structure SubmissionBehavior where
  definition_raises : Option (List Char)
  invocation_raises : Option (List Char)
  executed_result : List Char
  peak_memory : ℤ
  profiling_raises : Option (List Char)
  time_usage : List Char
  parsed_time : Option ℚ
deriving DecidableEq, Repr

/-- One element of the 5-tuple `step` returns (`info` is always `{}`). -/
structure StepTuple where
  observation : List Char
  reward : ℚ
  terminated : Bool
  truncated : Bool
deriving DecidableEq, Repr

/-- Outcome of a call to `step`: `result = none` models `step` raising out of
the call (the `assert` on line 171 failing); `tracer_active` models whether
the process-wide `tracemalloc` tracer is left running when `step` returns
(started on line 175, stopped only on line 179). -/
structure StepOutcome where
  result : Option StepTuple
  tracer_active : Bool
deriving DecidableEq, Repr

/-- Line `f"Peak memory usage: {m} bytes ({m/1024/1024} MiB)"` (the Python float
repr of `m/1024/1024` is modelled by the exact rational repr). -/
def memoryUsageString (memory_reward : ℤ) : List Char :=
  ("Peak memory usage: ").data ++ (toString memory_reward).data
    ++ (" bytes (").data ++ (toString ((memory_reward : ℚ) / 1024 / 1024)).data
    ++ (" MiB)").data

/-- The success observation assembled on lines 202-205:
`f"# Output\n{executed_result}\n\n---\n\n"`
`f"# Space complexity\n\n{memory_usage}\n\n---\n\n"`
`f"# Time complexity\n\n{time_usage}"`. -/
def successObservation (executed_result memory_usage time_usage : List Char) : List Char :=
  ("# Output\n").data ++ executed_result ++ ("\n\n---\n\n").data
    ++ ("# Space complexity\n\n").data ++ memory_usage ++ ("\n\n---\n\n").data
    ++ ("# Time complexity\n\n").data ++ time_usage

/-- Method `SimpleEvaluator.step` (lines 155-223).  Control flow: the entry-point
containment `assert` (line 171, outside the `try`, so its failure escapes);
then `exec` / first `eval` (memory-traced) / `cProfile` run, any of whose
exceptions land in the single `except` branch returning
`(traceback, self.exception_reward, False, False, {})`; then the aggregate
time is parsed with fallback `self.max_time_cost`, and the reward is
`-(time_weight * min(time/max_time, 1) + memory_weight * min(mem/max_mem, 1))`. -/
def SimpleEvaluator.step (env : SimpleEvaluator) (action : List Char)
    (beh : SubmissionBehavior) : StepOutcome :=
  if pyContains env.entry_point action then
    match beh.definition_raises with
    | some tb => ⟨some ⟨tb, env.exception_reward, false, false⟩, false⟩
    | none =>
      match beh.invocation_raises with
      | some tb =>
        -- tracemalloc.start() has run (line 175); the except branch returns
        -- without reaching tracemalloc.stop() (line 179).
        ⟨some ⟨tb, env.exception_reward, false, false⟩, true⟩
      | none =>
        match beh.profiling_raises with
        | some tb => ⟨some ⟨tb, env.exception_reward, false, false⟩, false⟩
        | none =>
          ⟨some ⟨successObservation beh.executed_result
                   (memoryUsageString beh.peak_memory) beh.time_usage,
                 -(env.time_weight
                     * min (beh.parsed_time.getD env.max_time_cost / env.max_time_cost) 1
                   + env.memory_weight
                     * min ((beh.peak_memory : ℚ) / (env.max_memory_cost : ℚ)) 1),
                 false, false⟩, false⟩
  else ⟨none, false⟩

/-- Constructor `TestDrivenEvaluator.__init__`: the base construction plus
`assert self.unittest_code` (fails for a missing key or empty string) and
`assert len(self.unittest_code) > 20`. -/
def TestDrivenEvaluator.init (config : Config) : Option (SimpleEvaluator × List Char) :=
  match SimpleEvaluator.init config with
  | none => none
  | some env =>
    match config.unittest with
    | none => none
    | some u => if u ≠ [] ∧ 20 < u.length then some (env, u) else none

/-- Oracle for the auxiliary unit-test block of `TestDrivenEvaluator.step`:
whether the re-`exec` of the submission / unit-test run raises (with rendered
traceback), and the captured stdout otherwise. -/
structure TDDBehavior where
  unittest_raises : Option (List Char)
  unittest_stdout : List Char
deriving DecidableEq, Repr

/-- The text spliced into the report: the captured stdout, or
`f"Unit test execution failed:\n{traceback.format_exc()}"` on an exception. -/
def tddUnittestOutput (tbeh : TDDBehavior) : List Char :=
  match tbeh.unittest_raises with
  | some tb => ("Unit test execution failed:\n").data ++ tb
  | none => tbeh.unittest_stdout

/-- The literal `"# Space complexity"` used as split/join separator. -/
def spaceHeader : List Char := ("# Space complexity").data

/-- Method `TestDrivenEvaluator.step`: runs the base step, then replaces everything
before the first `"# Space complexity"` in the observation with the
`"# Unit Test Output"` section (`obs = observation.split(...); obs[0] = ...;
"# Space complexity".join(obs)`), leaving the reward and flags untouched. -/
def TestDrivenEvaluator.step (env : SimpleEvaluator) (action : List Char)
    (beh : SubmissionBehavior) (tbeh : TDDBehavior) : StepOutcome :=
  let base := SimpleEvaluator.step env action beh
  match base.result with
  | none => base
  | some r =>
    let obs := pySplit spaceHeader r.observation
    let head0 := ("# Unit Test Output\n").data ++ tddUnittestOutput tbeh
        ++ ("\n\n---\n\n").data
    ⟨some ⟨List.intercalate spaceHeader (head0 :: obs.tail),
           r.reward, r.terminated, r.truncated⟩, base.tracer_active⟩

/-! ### Concrete instances used by witnesses and counterexamples -/

/-- The evaluator produced by `SimpleEvaluator(DEFAULT_CONFIG)`. -/
def envDefault : SimpleEvaluator :=
  { max_input_len := 32000, entry_point := "env_main".data, max_time_cost := 60,
    max_memory_cost := 4294967296, time_weight := 1, memory_weight := 1,
    exception_reward := -9, reward := 0 }

/-- The configuration of `test_exception` in src/test/test_core.py:
weights `(2, 0.5)`, `exception_reward = -9`. -/
def cfgWeighted : Config :=
  { max_input_len := 2048, max_time_cost := 1, max_memory_cost := 1073741824,
    entry_point := none, time_weight := some 2, memory_weight := some (1/2),
    exception_reward := -9 }

/-- The evaluator produced by `SimpleEvaluator(cfgWeighted)`. -/
def envWeighted : SimpleEvaluator :=
  { max_input_len := 2048, entry_point := "env_main".data, max_time_cost := 1,
    max_memory_cost := 1073741824, time_weight := 2, memory_weight := 1/2,
    exception_reward := -18, reward := 0 }

/-- The configuration of `test_timeout` in src/test/test_core.py:
weights `(2, 0.5)`, `exception_reward = -1`. -/
def cfgTimeout : Config :=
  { max_input_len := 2048, max_time_cost := 1, max_memory_cost := 1073741824,
    entry_point := none, time_weight := some 2, memory_weight := some (1/2),
    exception_reward := -1 }

/-- The evaluator produced by `SimpleEvaluator(cfgTimeout)`. -/
def envTimeout : SimpleEvaluator :=
  { max_input_len := 2048, entry_point := "env_main".data, max_time_cost := 1,
    max_memory_cost := 1073741824, time_weight := 2, memory_weight := 1/2,
    exception_reward := -2, reward := 0 }

/-- A copy of `DEFAULT_CONFIG` with a `time_weight` key but no `memory_weight` key:
exactly one of the two weights supplied. -/
def cfgLoneWeight : Config :=
  { DEFAULT_CONFIG with time_weight := some 5 }

/-- A submission that defines `env_main` and runs cleanly:
both invocations succeed, 100 bytes peak, aggregate time parses to 0.005 s. -/
def behOK : SubmissionBehavior :=
  { definition_raises := none, invocation_raises := none,
    executed_result := "42".data, peak_memory := 100, profiling_raises := none,
    time_usage := ("3 function calls in 0.005 seconds").data,
    parsed_time := some (1/200) }

/-- A submission whose entry-point invocation raises (e.g.
`def env_main():\n    raise ValueError()`): the first `eval` raises after
`tracemalloc.start()` has run. -/
def behInvocationRaises : SubmissionBehavior :=
  { definition_raises := none,
    invocation_raises := some ("Traceback (most recent call last): ValueError").data,
    executed_result := [], peak_memory := 0, profiling_raises := none,
    time_usage := [], parsed_time := none }

/-- A submission that runs cleanly but whose rendered `pstats` report does not
contain a parseable aggregate (`float(...)` raises): `parsed_time = none`. -/
def behParseFail : SubmissionBehavior :=
  { definition_raises := none, invocation_raises := none,
    executed_result := "42".data, peak_memory := 100, profiling_raises := none,
    time_usage := ("unparseable report").data, parsed_time := none }

/-- A clean auxiliary unit-test run printing a one-line summary. -/
def tbehOK : TDDBehavior :=
  { unittest_raises := none,
    unittest_stdout := ("Ran 1 test in 0.000s OK").data }

/-- A submission text that defines the default entry point. -/
def actionOK : List Char := ("def env_main():\n    return 42").data

/-- A submission text that does not contain the substring `env_main`. -/
def actionNoEntry : List Char := ("x = 1").data

/-- The submission text of the C6 failing input. -/
def actionRaise : List Char := ("def env_main():\n    raise ValueError()").data


/-! ### Construction lemmas -/

/-- Facts guaranteed by a successful construction. -/
theorem init_spec {config : Config} {env : SimpleEvaluator}
    (h : SimpleEvaluator.init config = some env) :
    env.time_weight = (weightsOf config).1 ∧
    env.memory_weight = (weightsOf config).2 ∧
    0 < env.time_weight ∧ 0 < env.memory_weight ∧
    0 < env.max_time_cost ∧ 0 < env.max_memory_cost ∧
    env.exception_reward = config.exception_reward * max env.time_weight env.memory_weight ∧
    env.exception_reward < 0 ∧
    env.entry_point = entryPointOf config := by
  rw [SimpleEvaluator.init] at h
  split at h
  case isTrue hc =>
    cases h
    obtain ⟨h1, h2, h3, h4, h5, h6⟩ := hc
    exact ⟨rfl, rfl, lt_of_lt_of_le h2 (min_le_left _ _), lt_of_lt_of_le h2 (min_le_right _ _),
      h4, h3, rfl, h1, rfl⟩
  case isFalse => cases h

theorem initDefault_eq : SimpleEvaluator.init DEFAULT_CONFIG = some envDefault := by
  rw [SimpleEvaluator.init, if_pos]
  · simp only [SimpleEvaluator.mk.injEq, DEFAULT_CONFIG, entryPointOf, weightsOf,
      scaledExceptionReward, pyInt, Option.getD_some, envDefault]
    norm_num [Rat.floor_def']
  · refine ⟨?_, ?_, ?_, ?_, ?_, ?_⟩ <;>
      simp only [DEFAULT_CONFIG, entryPointOf, weightsOf, scaledExceptionReward, pyInt,
        Option.getD_some] <;>
      first
      | decide
      | norm_num [Rat.floor_def']

/-- C1 (claim): on a successful step the reward is the negated weighted sum of
the two normalized costs, hence nonpositive and at least -(time_weight + memory_weight). -/
theorem c1_success_reward {config : Config} {env : SimpleEvaluator}
    (hcfg : SimpleEvaluator.init config = some env)
    (action : List Char) (beh : SubmissionBehavior)
    (hin : pyContains env.entry_point action = true)
    (hdef : beh.definition_raises = none)
    (hinv : beh.invocation_raises = none)
    (hprof : beh.profiling_raises = none)
    (hmem : 0 ≤ beh.peak_memory)
    (ht : ∀ t ∈ beh.parsed_time, 0 ≤ t) :
    ∃ r, (SimpleEvaluator.step env action beh).result = some r ∧
      r.reward = -(env.time_weight
          * min (beh.parsed_time.getD env.max_time_cost / env.max_time_cost) 1
        + env.memory_weight
          * min ((beh.peak_memory : ℚ) / (env.max_memory_cost : ℚ)) 1) ∧
      r.reward ≤ 0 ∧
      -(env.time_weight + env.memory_weight) ≤ r.reward := by
  obtain ⟨-, -, htw, hmw, hT, hM, -, -, -⟩ := init_spec hcfg
  have ht0 : (0 : ℚ) ≤ beh.parsed_time.getD env.max_time_cost := by
    cases hpt : beh.parsed_time with
    | none => simpa using hT.le
    | some t => simpa using ht t hpt
  have hM0 : (0 : ℚ) < (env.max_memory_cost : ℚ) := by exact_mod_cast hM
  have hmem0 : (0 : ℚ) ≤ (beh.peak_memory : ℚ) := by exact_mod_cast hmem
  have hnt0 : (0 : ℚ) ≤ min (beh.parsed_time.getD env.max_time_cost / env.max_time_cost) 1 :=
    le_min (div_nonneg ht0 hT.le) zero_le_one
  have hnm0 : (0 : ℚ) ≤ min ((beh.peak_memory : ℚ) / (env.max_memory_cost : ℚ)) 1 :=
    le_min (div_nonneg hmem0 hM0.le) zero_le_one
  refine ⟨⟨successObservation beh.executed_result (memoryUsageString beh.peak_memory)
      beh.time_usage,
    -(env.time_weight * min (beh.parsed_time.getD env.max_time_cost / env.max_time_cost) 1
      + env.memory_weight * min ((beh.peak_memory : ℚ) / (env.max_memory_cost : ℚ)) 1),
    false, false⟩, ?_, rfl, ?_, ?_⟩
  · simp only [SimpleEvaluator.step, hin, if_true, hdef, hinv, hprof]
  · simp only [neg_nonpos]
    exact add_nonneg (mul_nonneg htw.le hnt0) (mul_nonneg hmw.le hnm0)
  · simp only [neg_le_neg_iff]
    exact add_le_add (mul_le_of_le_one_right htw.le (min_le_right _ _))
      (mul_le_of_le_one_right hmw.le (min_le_right _ _))


theorem initWeighted_eq : SimpleEvaluator.init cfgWeighted = some envWeighted := by
  rw [SimpleEvaluator.init, if_pos]
  · simp only [SimpleEvaluator.mk.injEq, cfgWeighted, entryPointOf, weightsOf,
      scaledExceptionReward, pyInt, Option.getD_none, envWeighted]
    norm_num [Rat.floor_def']
  · refine ⟨?_, ?_, ?_, ?_, ?_, ?_⟩ <;>
      simp only [cfgWeighted, entryPointOf, weightsOf, scaledExceptionReward, pyInt,
        Option.getD_none] <;>
      first
      | decide
      | norm_num [Rat.floor_def']

theorem initTimeout_eq : SimpleEvaluator.init cfgTimeout = some envTimeout := by
  rw [SimpleEvaluator.init, if_pos]
  · simp only [SimpleEvaluator.mk.injEq, cfgTimeout, entryPointOf, weightsOf,
      scaledExceptionReward, pyInt, Option.getD_none, envTimeout]
    norm_num [Rat.floor_def']
  · refine ⟨?_, ?_, ?_, ?_, ?_, ?_⟩ <;>
      simp only [cfgTimeout, entryPointOf, weightsOf, scaledExceptionReward, pyInt,
        Option.getD_none] <;>
      first
      | decide
      | norm_num [Rat.floor_def']

/-- C2 (claim): whenever the observation is a failure trace (any of the three
stages raised), the reward is exactly the configured exception reward scaled
by the larger weight. -/
theorem c2_exception_reward {config : Config} {env : SimpleEvaluator}
    (hcfg : SimpleEvaluator.init config = some env)
    (action : List Char) (beh : SubmissionBehavior) (tb : List Char)
    (hin : pyContains env.entry_point action = true)
    (hfail : beh.definition_raises = some tb
      ∨ beh.definition_raises = none ∧ beh.invocation_raises = some tb
      ∨ beh.definition_raises = none ∧ beh.invocation_raises = none
          ∧ beh.profiling_raises = some tb) :
    ∃ r, (SimpleEvaluator.step env action beh).result = some r ∧
      r.observation = tb ∧
      r.reward = config.exception_reward * max env.time_weight env.memory_weight := by
  obtain ⟨-, -, -, -, -, -, hexc, -, -⟩ := init_spec hcfg
  refine ⟨⟨tb, env.exception_reward, false, false⟩, ?_, rfl, hexc⟩
  rcases hfail with h1 | ⟨h1, h2⟩ | ⟨h1, h2, h3⟩
  · simp only [SimpleEvaluator.step, hin, if_true, h1]
  · simp only [SimpleEvaluator.step, hin, if_true, h1, h2]
  · simp only [SimpleEvaluator.step, hin, if_true, h1, h2, h3]

/-- C3 counterexample: the configuration used by `test_timeout` in the
repository test-suite is accepted, yet its scaled exception penalty `-2` is
NOT strictly below `-(time_weight + memory_weight) = -5/2`. -/
theorem c3_counterexample :
    SimpleEvaluator.init cfgTimeout = some envTimeout ∧
    ¬ (envTimeout.exception_reward
        < -(envTimeout.time_weight + envTimeout.memory_weight)) := by
  refine ⟨initTimeout_eq, ?_⟩
  norm_num [envTimeout]

/-- C3 amended: construction only guarantees that the scaled exception
penalty is strictly negative. -/
theorem c3_amended {config : Config} {env : SimpleEvaluator}
    (hcfg : SimpleEvaluator.init config = some env) :
    env.exception_reward < 0 := by
  obtain ⟨-, -, -, -, -, -, -, hneg, -⟩ := init_spec hcfg
  exact hneg

theorem c3_amended_witness :
    SimpleEvaluator.init cfgTimeout = some envTimeout ∧
    envTimeout.exception_reward < 0 :=
  ⟨initTimeout_eq, c3_amended initTimeout_eq⟩


/-- C4 counterexample: a submission (well within the length bound) that does
not textually contain the entry-point identifier makes `step` raise (the
`assert` on line 171 fails): no `StepResult` is returned at all. -/
theorem c4_counterexample :
    SimpleEvaluator.init DEFAULT_CONFIG = some envDefault ∧
    actionNoEntry.length ≤ envDefault.max_input_len ∧
    (SimpleEvaluator.step envDefault actionNoEntry behOK).result = none := by
  refine ⟨initDefault_eq, by decide, ?_⟩
  simp only [SimpleEvaluator.step]
  rw [if_neg]
  decide

/-- C4 amended: for every submission that DOES textually contain the
entry-point identifier, `step` returns a `StepResult` with
`terminated = truncated = false`, and on any failure the observation is the
trace and the reward the stored exception reward. -/
theorem c4_amended (env : SimpleEvaluator) (action : List Char)
    (beh : SubmissionBehavior)
    (hin : pyContains env.entry_point action = true) :
    ∃ r, (SimpleEvaluator.step env action beh).result = some r ∧
      r.terminated = false ∧ r.truncated = false ∧
      ∀ tb, (beh.definition_raises = some tb
          ∨ beh.definition_raises = none ∧ beh.invocation_raises = some tb
          ∨ beh.definition_raises = none ∧ beh.invocation_raises = none
              ∧ beh.profiling_raises = some tb) →
        r.observation = tb ∧ r.reward = env.exception_reward := by
  cases hd : beh.definition_raises with
  | some tb =>
    refine ⟨⟨tb, env.exception_reward, false, false⟩,
      by simp only [SimpleEvaluator.step, hin, if_true, hd], rfl, rfl, ?_⟩
    rintro tb2 (h | ⟨h, -⟩ | ⟨h, -, -⟩)
    · cases h; exact ⟨rfl, rfl⟩
    · exact absurd h (by simp)
    · exact absurd h (by simp)
  | none =>
    cases hi : beh.invocation_raises with
    | some tb =>
      refine ⟨⟨tb, env.exception_reward, false, false⟩,
        by simp only [SimpleEvaluator.step, hin, if_true, hd, hi], rfl, rfl, ?_⟩
      rintro tb2 (h | ⟨-, h⟩ | ⟨-, h, -⟩)
      · exact absurd h (by simp)
      · cases h; exact ⟨rfl, rfl⟩
      · exact absurd h (by simp)
    | none =>
      cases hp : beh.profiling_raises with
      | some tb =>
        refine ⟨⟨tb, env.exception_reward, false, false⟩,
          by simp only [SimpleEvaluator.step, hin, if_true, hd, hi, hp], rfl, rfl, ?_⟩
        rintro tb2 (h | ⟨-, h⟩ | ⟨-, -, h⟩)
        · exact absurd h (by simp)
        · exact absurd h (by simp)
        · cases h; exact ⟨rfl, rfl⟩
      | none =>
        refine ⟨⟨successObservation beh.executed_result (memoryUsageString beh.peak_memory)
            beh.time_usage,
          -(env.time_weight * min (beh.parsed_time.getD env.max_time_cost / env.max_time_cost) 1
            + env.memory_weight * min ((beh.peak_memory : ℚ) / (env.max_memory_cost : ℚ)) 1),
          false, false⟩,
          by simp only [SimpleEvaluator.step, hin, if_true, hd, hi, hp], rfl, rfl, ?_⟩
        rintro tb2 (h | ⟨-, h⟩ | ⟨-, -, h⟩) <;> exact absurd h (by simp)

theorem c4_amended_witness :
    pyContains envDefault.entry_point actionOK = true ∧
    ∃ r, (SimpleEvaluator.step envDefault actionOK behOK).result = some r ∧
      r.terminated = false ∧ r.truncated = false ∧
      ∀ tb, (behOK.definition_raises = some tb
          ∨ behOK.definition_raises = none ∧ behOK.invocation_raises = some tb
          ∨ behOK.definition_raises = none ∧ behOK.invocation_raises = none
              ∧ behOK.profiling_raises = some tb) →
        r.observation = tb ∧ r.reward = envDefault.exception_reward :=
  ⟨by decide, c4_amended envDefault actionOK behOK (by decide)⟩

/-- C5 counterexample: supplying exactly one of the two weights does NOT make
construction fail: the evaluator is produced, with both weights silently
defaulted to 1 (the supplied `time_weight = 5` is ignored). -/
theorem c5_counterexample :
    cfgLoneWeight.time_weight = some 5 ∧ cfgLoneWeight.memory_weight = none ∧
    SimpleEvaluator.init cfgLoneWeight = some envDefault := by
  refine ⟨rfl, rfl, ?_⟩
  rw [SimpleEvaluator.init, if_pos]
  · simp only [SimpleEvaluator.mk.injEq, cfgLoneWeight, DEFAULT_CONFIG, entryPointOf,
      weightsOf, scaledExceptionReward, pyInt, Option.getD_some, envDefault]
    norm_num [Rat.floor_def']
  · refine ⟨?_, ?_, ?_, ?_, ?_, ?_⟩ <;>
      simp only [cfgLoneWeight, DEFAULT_CONFIG, entryPointOf, weightsOf,
        scaledExceptionReward, pyInt, Option.getD_some] <;>
      first
      | decide
      | norm_num [Rat.floor_def']

/-- C5 amended: a configuration in which exactly one weight is supplied is
treated exactly like one in which neither is supplied: the lone weight has no
effect on construction at all (in particular construction does not fail on
its account). -/
theorem c5_amended (config : Config) (t m : ℚ) :
    (config.memory_weight = none →
      SimpleEvaluator.init { config with time_weight := some t }
        = SimpleEvaluator.init { config with time_weight := none }) ∧
    (config.time_weight = none →
      SimpleEvaluator.init { config with memory_weight := some m }
        = SimpleEvaluator.init { config with memory_weight := none }) := by
  constructor <;> intro h <;>
    simp only [SimpleEvaluator.init, scaledExceptionReward, weightsOf, entryPointOf,
      pyInt, h]

theorem c5_amended_witness :
    DEFAULT_CONFIG.memory_weight = none ∧
    SimpleEvaluator.init { DEFAULT_CONFIG with time_weight := some 5 }
      = SimpleEvaluator.init { DEFAULT_CONFIG with time_weight := none } :=
  ⟨rfl, (c5_amended DEFAULT_CONFIG 5 7).1 rfl⟩


/-- C6 (code evaluated at the failing input): when the entry-point invocation
raises, `step` returns the failure `StepResult` but leaves the process-wide
`tracemalloc` tracer RUNNING — `tracemalloc.stop()` (line 179) is never
reached on that path, contradicting the claimed start/stop pairing. -/
theorem c6_tracer_leak :
    (SimpleEvaluator.step envDefault actionRaise behInvocationRaises).tracer_active = true ∧
    (SimpleEvaluator.step envDefault actionRaise behInvocationRaises).result
      = some ⟨("Traceback (most recent call last): ValueError").data,
              envDefault.exception_reward, false, false⟩ := by
  constructor
  · simp only [SimpleEvaluator.step, behInvocationRaises]
    rw [if_pos]
    decide
  · simp only [SimpleEvaluator.step, behInvocationRaises]
    rw [if_pos]
    decide

/-- C7 (claim): when the aggregate time cannot be parsed on an otherwise
successful step, the substituted value is exactly `max_time_cost`, whose
normalization saturates to 1 (the worst case), and the step still returns a
normalized success reward with the success observation. -/
theorem c7_parse_fallback {config : Config} {env : SimpleEvaluator}
    (hcfg : SimpleEvaluator.init config = some env)
    (action : List Char) (beh : SubmissionBehavior)
    (hin : pyContains env.entry_point action = true)
    (hdef : beh.definition_raises = none)
    (hinv : beh.invocation_raises = none)
    (hprof : beh.profiling_raises = none)
    (hparse : beh.parsed_time = none) :
    ∃ r, (SimpleEvaluator.step env action beh).result = some r ∧
      r.observation = successObservation beh.executed_result
        (memoryUsageString beh.peak_memory) beh.time_usage ∧
      r.reward = -(env.time_weight * min (env.max_time_cost / env.max_time_cost) 1
        + env.memory_weight * min ((beh.peak_memory : ℚ) / (env.max_memory_cost : ℚ)) 1) ∧
      min (env.max_time_cost / env.max_time_cost) 1 = 1 := by
  obtain ⟨-, -, -, -, hT, -, -, -, -⟩ := init_spec hcfg
  refine ⟨⟨successObservation beh.executed_result (memoryUsageString beh.peak_memory)
      beh.time_usage,
    -(env.time_weight * min (env.max_time_cost / env.max_time_cost) 1
      + env.memory_weight * min ((beh.peak_memory : ℚ) / (env.max_memory_cost : ℚ)) 1),
    false, false⟩, ?_, rfl, rfl, ?_⟩
  · simp only [SimpleEvaluator.step, hin, if_true, hdef, hinv, hprof, hparse,
      Option.getD_none]
  · rw [div_self hT.ne']
    exact min_self 1

theorem c7_parse_fallback_witness :
    SimpleEvaluator.init DEFAULT_CONFIG = some envDefault ∧
    behParseFail.parsed_time = none ∧
    ∃ r, (SimpleEvaluator.step envDefault actionOK behParseFail).result = some r ∧
      r.observation = successObservation behParseFail.executed_result
        (memoryUsageString behParseFail.peak_memory) behParseFail.time_usage ∧
      r.reward = -(envDefault.time_weight
          * min (envDefault.max_time_cost / envDefault.max_time_cost) 1
        + envDefault.memory_weight
          * min ((behParseFail.peak_memory : ℚ) / (envDefault.max_memory_cost : ℚ)) 1) ∧
      min (envDefault.max_time_cost / envDefault.max_time_cost) 1 = 1 :=
  ⟨initDefault_eq, rfl,
    c7_parse_fallback initDefault_eq actionOK behParseFail (by decide) rfl rfl rfl rfl⟩

/-- C8 (claim): holding the measured aggregate time, the peak memory and the
weights fixed, raising `max_time_cost` and/or `max_memory_cost` never
decreases the success reward. -/
theorem c8_monotone (env : SimpleEvaluator) (T2 : ℚ) (M2 : ℤ)
    (action : List Char) (beh : SubmissionBehavior) (t : ℚ)
    (hT0 : 0 < env.max_time_cost) (hT : env.max_time_cost ≤ T2)
    (hM0 : 0 < env.max_memory_cost) (hM : env.max_memory_cost ≤ M2)
    (htw : 0 ≤ env.time_weight) (hmw : 0 ≤ env.memory_weight)
    (hin : pyContains env.entry_point action = true)
    (hdef : beh.definition_raises = none)
    (hinv : beh.invocation_raises = none)
    (hprof : beh.profiling_raises = none)
    (hparse : beh.parsed_time = some t) (ht0 : 0 ≤ t)
    (hmem : 0 ≤ beh.peak_memory) :
    ∃ r1 r2,
      (SimpleEvaluator.step env action beh).result = some r1 ∧
      (SimpleEvaluator.step { env with max_time_cost := T2, max_memory_cost := M2 }
          action beh).result = some r2 ∧
      r1.reward ≤ r2.reward := by
  have hT2 : (0 : ℚ) < T2 := lt_of_lt_of_le hT0 hT
  have hM0q : (0 : ℚ) < (env.max_memory_cost : ℚ) := by exact_mod_cast hM0
  have hM2q : ((env.max_memory_cost : ℚ)) ≤ (M2 : ℚ) := by exact_mod_cast hM
  have hM2 : (0 : ℚ) < (M2 : ℚ) := lt_of_lt_of_le hM0q hM2q
  have hmemq : (0 : ℚ) ≤ (beh.peak_memory : ℚ) := by exact_mod_cast hmem
  have h1 : min (t / T2) 1 ≤ min (t / env.max_time_cost) 1 := by
    refine min_le_min ?_ le_rfl
    gcongr
  have h2 : min ((beh.peak_memory : ℚ) / (M2 : ℚ)) 1
      ≤ min ((beh.peak_memory : ℚ) / (env.max_memory_cost : ℚ)) 1 := by
    refine min_le_min ?_ le_rfl
    gcongr
  refine ⟨⟨successObservation beh.executed_result (memoryUsageString beh.peak_memory)
      beh.time_usage,
    -(env.time_weight * min (beh.parsed_time.getD env.max_time_cost / env.max_time_cost) 1
      + env.memory_weight * min ((beh.peak_memory : ℚ) / (env.max_memory_cost : ℚ)) 1),
    false, false⟩,
    ⟨successObservation beh.executed_result (memoryUsageString beh.peak_memory)
      beh.time_usage,
    -(env.time_weight * min (beh.parsed_time.getD T2 / T2) 1
      + env.memory_weight * min ((beh.peak_memory : ℚ) / (M2 : ℚ)) 1),
    false, false⟩, ?_, ?_, ?_⟩
  · simp only [SimpleEvaluator.step, hin, if_true, hdef, hinv, hprof]
  · simp only [SimpleEvaluator.step, hin, if_true, hdef, hinv, hprof]
  · simp only [hparse, Option.getD_some, neg_le_neg_iff]
    exact add_le_add (mul_le_mul_of_nonneg_left h1 htw) (mul_le_mul_of_nonneg_left h2 hmw)

theorem c8_monotone_witness :
    (0 : ℚ) < envDefault.max_time_cost ∧ envDefault.max_time_cost ≤ 120 ∧
    (0 : ℤ) < envDefault.max_memory_cost ∧ envDefault.max_memory_cost ≤ 8589934592 ∧
    ∃ r1 r2,
      (SimpleEvaluator.step envDefault actionOK behOK).result = some r1 ∧
      (SimpleEvaluator.step
          { envDefault with max_time_cost := 120, max_memory_cost := 8589934592 }
          actionOK behOK).result = some r2 ∧
      r1.reward ≤ r2.reward := by
  refine ⟨by norm_num [envDefault], by norm_num [envDefault], by norm_num [envDefault],
    by norm_num [envDefault], ?_⟩
  exact c8_monotone envDefault 120 8589934592 actionOK behOK (1/200)
    (by norm_num [envDefault]) (by norm_num [envDefault]) (by norm_num [envDefault])
    (by norm_num [envDefault]) (by norm_num [envDefault]) (by norm_num [envDefault])
    (by decide) rfl rfl rfl rfl (by norm_num) (by norm_num [behOK])

/-- C9 (claim): the test-driven step returns exactly the base step reward;
the auxiliary unit-test run (whatever its outcome) affects only the
observation text. -/
theorem c9_reward_frame (env : SimpleEvaluator) (action : List Char)
    (beh : SubmissionBehavior) (tbeh : TDDBehavior) :
    ((TestDrivenEvaluator.step env action beh tbeh).result).map StepTuple.reward
      = ((SimpleEvaluator.step env action beh).result).map StepTuple.reward := by
  rw [TestDrivenEvaluator.step]
  cases h : (SimpleEvaluator.step env action beh).result with
  | none => simp [h]
  | some r => simp [h]


theorem c1_success_reward_witness :
    SimpleEvaluator.init DEFAULT_CONFIG = some envDefault ∧
    pyContains envDefault.entry_point actionOK = true ∧
    ∃ r, (SimpleEvaluator.step envDefault actionOK behOK).result = some r ∧
      r.reward = -(envDefault.time_weight
          * min (behOK.parsed_time.getD envDefault.max_time_cost / envDefault.max_time_cost) 1
        + envDefault.memory_weight
          * min ((behOK.peak_memory : ℚ) / (envDefault.max_memory_cost : ℚ)) 1) ∧
      r.reward ≤ 0 ∧
      -(envDefault.time_weight + envDefault.memory_weight) ≤ r.reward :=
  ⟨initDefault_eq, by decide,
    c1_success_reward initDefault_eq actionOK behOK (by decide) rfl rfl rfl (by decide)
      (fun t ht => by
        simp only [behOK, Option.mem_def, Option.some.injEq] at ht
        subst ht
        norm_num)⟩

theorem c2_exception_reward_witness :
    SimpleEvaluator.init cfgWeighted = some envWeighted ∧
    behInvocationRaises.invocation_raises
      = some ("Traceback (most recent call last): ValueError").data ∧
    ∃ r, (SimpleEvaluator.step envWeighted actionRaise behInvocationRaises).result = some r ∧
      r.observation = ("Traceback (most recent call last): ValueError").data ∧
      r.reward = cfgWeighted.exception_reward
        * max envWeighted.time_weight envWeighted.memory_weight :=
  ⟨initWeighted_eq, rfl,
    c2_exception_reward initWeighted_eq actionRaise behInvocationRaises _
      (by decide) (Or.inr (Or.inl ⟨rfl, rfl⟩))⟩


/-! ### Substring machinery for the report-splicing claim -/

section StringLemmas

variable {α : Type}

theorem takeAgree {p ℓ z : List α} (h : p <+: ℓ ++ z) :
    p.take ℓ.length = ℓ.take p.length := by
  obtain ⟨t, ht⟩ := h
  have h1 : p = (ℓ ++ z).take p.length := by
    rw [← ht, List.take_left]
  have h2 : ℓ = (ℓ ++ z).take ℓ.length := (List.take_left ℓ z).symm
  calc p.take ℓ.length = ((ℓ ++ z).take p.length).take ℓ.length := by rw [← h1]
    _ = (ℓ ++ z).take (min ℓ.length p.length) := List.take_take ..
    _ = (ℓ ++ z).take (min p.length ℓ.length) := by rw [Nat.min_comm]
    _ = ((ℓ ++ z).take ℓ.length).take p.length := (List.take_take ..).symm
    _ = ℓ.take p.length := by rw [← h2]

theorem dropCases {ℓ a b : List α} (h : ℓ <:+ a ++ b) :
    ℓ <:+ b ∨ ∃ d, d <:+ a ∧ d ≠ [] ∧ ℓ = d ++ b := by
  obtain ⟨t, ht⟩ := h
  by_cases hle : a.length ≤ t.length
  · left
    have hpre : a <+: t :=
      List.prefix_of_prefix_length_le ⟨b, rfl⟩ ⟨ℓ, ht⟩ hle
    obtain ⟨u, hu⟩ := hpre
    rw [← hu, List.append_assoc] at ht
    exact ⟨u, List.append_cancel_left ht⟩
  · right
    push_neg at hle
    have hpre : t <+: a :=
      List.prefix_of_prefix_length_le ⟨ℓ, ht⟩ ⟨b, rfl⟩ hle.le
    obtain ⟨d, hd⟩ := hpre
    refine ⟨d, ⟨t, hd⟩, ?_, ?_⟩
    · rintro rfl
      rw [List.append_nil] at hd
      subst hd
      exact absurd hle (lt_irrefl _)
    · have heq : t ++ ℓ = t ++ (d ++ b) := by rw [ht, ← hd, List.append_assoc]
      exact List.append_cancel_left heq

theorem occCases {p a b : List α} (h : p <:+: a ++ b) :
    (∃ ℓ, ℓ <:+ a ∧ ℓ ≠ [] ∧ p <+: ℓ ++ b) ∨ p <:+: b := by
  rw [ List.infix_iff_prefix_suffix] at h
  obtain ⟨t, hpt, hts⟩ := h
  rcases dropCases hts with h1 | ⟨d, hda, hdne, rfl⟩
  · exact Or.inr ( List.infix_iff_prefix_suffix.mpr ⟨t, hpt, h1⟩)
  · exact Or.inl ⟨d, hda, hdne, hpt⟩

theorem headOfPre {c : α} {q s : List α} (h : (c :: q) <+: s) : s.head? = some c := by
  obtain ⟨t, ht⟩ := h
  rw [← ht]
  rfl

theorem noOccOfHead {c : α} {q s : List α} (hc : c ∉ s) : ¬ (c :: q) <:+: s :=
  fun h => hc (h.subset (List.mem_cons_self c q))

theorem noOccLit {p a b : List α}
    (hck : ∀ i, i < a.length → p.take (a.length - i) ≠ (a.drop i).take p.length)
    (hb : ¬ p <:+: b) : ¬ p <:+: a ++ b := by
  intro h
  rcases occCases h with ⟨ℓ, hla, hlne, hpre⟩ | h2
  · obtain ⟨t, htl⟩ := hla
    have hdrop : a.drop t.length = ℓ := by rw [← htl, List.drop_left]
    have hi : t.length < a.length := by
      rw [← htl, List.length_append]
      cases ℓ with
      | nil => exact absurd rfl hlne
      | cons e ℓt => simp
    have hlen2 : a.length - t.length = ℓ.length := by
      rw [← htl, List.length_append]
      omega
    exact hck t.length hi (by rw [hlen2, hdrop]; exact takeAgree hpre)
  · exact hb h2

theorem noOccDyn {c : α} {q d b : List α} (hd : c ∉ d) (hb : ¬ (c :: q) <:+: b) :
    ¬ (c :: q) <:+: d ++ b := by
  intro h
  rcases occCases h with ⟨ℓ, hla, hlne, hpre⟩ | h2
  · cases ℓ with
    | nil => exact hlne rfl
    | cons e ℓt =>
      have hh := headOfPre hpre
      simp only [List.cons_append, List.head?_cons, Option.some.injEq] at hh
      subst hh
      exact hd (hla.subset (List.mem_cons_self _ _))
  · exact hb h2

theorem noPre_append {sep a b z : List α}
    (ha : NoPre sep a (b ++ z)) (hb : NoPre sep b z) :
    NoPre sep (a ++ b) z := by
  intro ℓ hl hlne
  rcases dropCases hl with h1 | ⟨d, hda, hdne, rfl⟩
  · exact hb ℓ h1 hlne
  · intro hpre
    exact ha d hda hdne (by rwa [List.append_assoc] at hpre)

theorem noPre_lit {sep a z : List α}
    (hck : ∀ i, i < a.length → sep.take (a.length - i) ≠ (a.drop i).take sep.length) :
    NoPre sep a z := by
  intro ℓ hla hlne hpre
  obtain ⟨t, htl⟩ := hla
  have hdrop : a.drop t.length = ℓ := by rw [← htl, List.drop_left]
  have hi : t.length < a.length := by
    rw [← htl, List.length_append]
    cases ℓ with
    | nil => exact absurd rfl hlne
    | cons e ℓt => simp
  have hlen2 : a.length - t.length = ℓ.length := by
    rw [← htl, List.length_append]
    omega
  exact hck t.length hi (by rw [hlen2, hdrop]; exact takeAgree hpre)

theorem noPre_dyn {c : α} {q d z : List α} (hd : c ∉ d) : NoPre (c :: q) d z := by
  intro ℓ hld hlne hpre
  cases ℓ with
  | nil => exact hlne rfl
  | cons e ℓt =>
    have hh := headOfPre hpre
    simp only [List.cons_append, List.head?_cons, Option.some.injEq] at hh
    subst hh
    exact hd (hld.subset (List.mem_cons_self _ _))

end StringLemmas

theorem pySplit_no_occ {sep s : List Char} (h : ¬ sep <:+: s) : pySplit sep s = [s] := by
  induction s with
  | nil => simp [pySplit]
  | cons c rest ih =>
    rw [pySplit]
    have hnp : sep.isPrefixOf (c :: rest) = false := by
      rw [Bool.eq_false_iff]
      intro hp
      rw [ List.isPrefixOf_iff_prefix] at hp
      exact h hp.isInfix
    rw [hnp]
    simp only [Bool.false_eq_true, if_false]
    have hrest : ¬ sep <:+: rest := fun hI => h ( List.infix_cons hI)
    rw [ih hrest]

theorem pySplit_append {sep y : List Char} (hsep : sep ≠ []) :
    ∀ x : List Char, NoPre sep x (sep ++ y) →
      pySplit sep (x ++ sep ++ y) = x :: pySplit sep y := by
  intro x
  induction x with
  | nil =>
    intro _
    obtain ⟨s0, st, rfl⟩ : ∃ s0 st, sep = s0 :: st := by
      cases sep with
      | nil => exact absurd rfl hsep
      | cons s0 st => exact ⟨s0, st, rfl⟩
    simp only [List.nil_append, List.cons_append]
    rw [pySplit]
    have hpre : (s0 :: st).isPrefixOf (s0 :: (st ++ y)) = true := by
      rw [ List.isPrefixOf_iff_prefix]
      exact ⟨y, by simp⟩
    rw [hpre]
    simp only [if_true, List.length_cons, Nat.add_sub_cancel, List.drop_left]
  | cons c x' ih =>
    intro hnp
    have hshape : (c :: x') ++ sep ++ y = c :: (x' ++ sep ++ y) := by simp
    rw [hshape, pySplit]
    have hcond : sep.isPrefixOf (c :: (x' ++ sep ++ y)) = false := by
      rw [Bool.eq_false_iff]
      intro hp
      rw [ List.isPrefixOf_iff_prefix] at hp
      refine hnp (c :: x') List.suffix_rfl (by simp) ?_
      rwa [← hshape, List.append_assoc] at hp
    rw [hcond]
    simp only [Bool.false_eq_true, if_false]
    have hnp2 : NoPre sep x' (sep ++ y) :=
      fun ℓ hl hlne => hnp ℓ (hl.trans (List.suffix_cons c x')) hlne
    rw [ih hnp2]



/-! ### The dynamic report fragments produced by the harness itself contain
no section-header character -/

theorem digitChar_ne_hash (n : ℕ) : Nat.digitChar n ≠ '#' := by
  by_cases h : n < 16
  · have hk : ∀ k, k < 16 → Nat.digitChar k ≠ '#' := by decide
    exact hk n h
  · push_neg at h
    unfold Nat.digitChar
    repeat rw [if_neg (by omega)]
    decide

theorem toDigitsCore_no_hash : ∀ (fuel n : ℕ) (ds : List Char), '#' ∉ ds →
    '#' ∉ Nat.toDigitsCore 10 fuel n ds := by
  intro fuel
  induction fuel with
  | zero => intro n ds h; simpa [Nat.toDigitsCore] using h
  | succ f ih =>
    intro n ds h
    have hcons : '#' ∉ Nat.digitChar (n % 10) :: ds := by
      intro hmem
      rcases List.mem_cons.mp hmem with he | hm
      · exact digitChar_ne_hash _ he.symm
      · exact h hm
    rw [Nat.toDigitsCore]
    split
    · exact hcons
    · exact ih _ _ hcons

theorem natRepr_no_hash (n : ℕ) : '#' ∉ (Nat.repr n).data :=
  toDigitsCore_no_hash _ _ _ (by simp)

theorem intRepr_no_hash (m : ℤ) : '#' ∉ (toString m).data := by
  cases m with
  | ofNat n => exact natRepr_no_hash n
  | negSucc n =>
    show '#' ∉ ("-" ++ Nat.repr (n+1)).data
    rw [String.data_append]
    intro hmem
    rcases List.mem_append.mp hmem with h1 | h2
    · simp at h1
    · exact natRepr_no_hash _ h2

theorem ratToString_no_hash (q : ℚ) : '#' ∉ (toString q).data := by
  show '#' ∉ (if q.den = 1 then toString q.num else
    toString "" ++ toString q.num ++ toString "/" ++ toString q.den ++ toString "").data
  split
  · exact intRepr_no_hash q.num
  · simp only [String.data_append]
    intro hmem
    simp only [List.mem_append] at hmem
    rcases hmem with ((((h | h) | h) | h) | h)
    · exact absurd h (by decide)
    · exact intRepr_no_hash q.num h
    · exact absurd h (by decide)
    · exact natRepr_no_hash q.den h
    · exact absurd h (by decide)

/-- The memory line the harness renders never contains the header
character `#`, whatever the measured peak is. -/
theorem memoryUsage_no_hash (m : ℤ) : '#' ∉ memoryUsageString m := by
  intro hmem
  simp only [memoryUsageString, List.mem_append] at hmem
  rcases hmem with ((((h | h) | h) | h) | h)
  · exact absurd h (by decide)
  · exact intRepr_no_hash m h
  · exact absurd h (by decide)
  · exact ratToString_no_hash _ h
  · exact absurd h (by decide)

theorem intercalate_pair {α : Type} (sep a b : List α) :
    List.intercalate sep [a, b] = a ++ sep ++ b := by
  simp [List.intercalate, List.intersperse]

/-- C10 (claim): in the test-driven variant, on a successful step the entire
prefix of the base report before `"# Space complexity"` — the `"# Output"`
section with the entry point return value — is REPLACED by the
`"# Unit Test Output"` section, and the resulting observation does not
contain `"# Output"` at all. -/
theorem c10_splice (env : SimpleEvaluator) (action : List Char)
    (beh : SubmissionBehavior) (tbeh : TDDBehavior)
    (hin : pyContains env.entry_point action = true)
    (hdef : beh.definition_raises = none)
    (hinv : beh.invocation_raises = none)
    (hprof : beh.profiling_raises = none)
    (her : '#' ∉ beh.executed_result)
    (htu : '#' ∉ beh.time_usage)
    (hut : '#' ∉ tddUnittestOutput tbeh) :
    ∃ r, (TestDrivenEvaluator.step env action beh tbeh).result = some r ∧
      r.observation = ("# Unit Test Output\n").data ++ tddUnittestOutput tbeh
        ++ ("\n\n---\n\n").data ++ spaceHeader ++ ("\n\n").data
        ++ memoryUsageString beh.peak_memory ++ ("\n\n---\n\n").data
        ++ ("# Time complexity\n\n").data ++ beh.time_usage ∧
      ¬ ("# Output").data <:+: r.observation := by
  have hmu : '#' ∉ memoryUsageString beh.peak_memory := memoryUsage_no_hash _
  have hsep : spaceHeader ≠ [] := by decide
  have hsepcons : spaceHeader = '#' :: (" Space complexity").data := rfl
  have houtcons : ("# Output").data = '#' :: (" Output").data := rfl
  have hY : ¬ spaceHeader <:+: ("\n\n").data
      ++ (memoryUsageString beh.peak_memory ++ (("\n\n---\n\n").data
        ++ (("# Time complexity\n\n").data ++ beh.time_usage))) := by
    rw [hsepcons]
    apply noOccLit (by decide)
    apply noOccDyn hmu
    apply noOccLit (by decide)
    apply noOccLit (by decide)
    exact noOccOfHead htu
  have hX : NoPre spaceHeader
      (("# Output\n").data ++ (beh.executed_result ++ ("\n\n---\n\n").data))
      (spaceHeader ++ (("\n\n").data
        ++ (memoryUsageString beh.peak_memory ++ (("\n\n---\n\n").data
          ++ (("# Time complexity\n\n").data ++ beh.time_usage))))) := by
    apply noPre_append
    · rw [hsepcons]
      exact noPre_lit (by decide)
    · apply noPre_append
      · rw [hsepcons]
        exact noPre_dyn her
      · rw [hsepcons]
        exact noPre_lit (by decide)
  have hobs : successObservation beh.executed_result
        (memoryUsageString beh.peak_memory) beh.time_usage
      = (("# Output\n").data ++ (beh.executed_result ++ ("\n\n---\n\n").data))
        ++ spaceHeader
        ++ (("\n\n").data ++ (memoryUsageString beh.peak_memory
            ++ (("\n\n---\n\n").data
              ++ (("# Time complexity\n\n").data ++ beh.time_usage)))) := by
    rw [successObservation,
      show ("# Space complexity\n\n").data = spaceHeader ++ ("\n\n").data from rfl]
    simp only [List.append_assoc]
  have hsplit : pySplit spaceHeader (successObservation beh.executed_result
        (memoryUsageString beh.peak_memory) beh.time_usage)
      = (("# Output\n").data ++ (beh.executed_result ++ ("\n\n---\n\n").data))
        :: [("\n\n").data ++ (memoryUsageString beh.peak_memory
            ++ (("\n\n---\n\n").data
              ++ (("# Time complexity\n\n").data ++ beh.time_usage)))] := by
    rw [hobs, pySplit_append hsep _ hX, pySplit_no_occ hY]
  have hbase : (SimpleEvaluator.step env action beh).result
      = some ⟨successObservation beh.executed_result
          (memoryUsageString beh.peak_memory) beh.time_usage,
        -(env.time_weight
            * min (beh.parsed_time.getD env.max_time_cost / env.max_time_cost) 1
          + env.memory_weight
            * min ((beh.peak_memory : ℚ) / (env.max_memory_cost : ℚ)) 1),
        false, false⟩ := by
    simp only [SimpleEvaluator.step, hin, if_true, hdef, hinv, hprof]
  have htracer : (SimpleEvaluator.step env action beh).tracer_active = false := by
    simp only [SimpleEvaluator.step, hin, if_true, hdef, hinv, hprof]
  refine ⟨⟨("# Unit Test Output\n").data ++ tddUnittestOutput tbeh
        ++ ("\n\n---\n\n").data ++ spaceHeader ++ ("\n\n").data
        ++ memoryUsageString beh.peak_memory ++ ("\n\n---\n\n").data
        ++ ("# Time complexity\n\n").data ++ beh.time_usage,
      -(env.time_weight
          * min (beh.parsed_time.getD env.max_time_cost / env.max_time_cost) 1
        + env.memory_weight
          * min ((beh.peak_memory : ℚ) / (env.max_memory_cost : ℚ)) 1),
      false, false⟩, ?_, rfl, ?_⟩
  · rw [TestDrivenEvaluator.step]
    simp only [hbase, hsplit, List.tail_cons]
    rw [intercalate_pair]
    simp only [List.append_assoc]
  · rw [houtcons]
    simp only [List.append_assoc]
    apply noOccLit (by decide)
    apply noOccDyn hut
    apply noOccLit (by decide)
    apply noOccLit (by decide)
    apply noOccLit (by decide)
    apply noOccDyn hmu
    apply noOccLit (by decide)
    apply noOccLit (by decide)
    exact noOccOfHead htu


theorem c10_splice_witness :
    pyContains envDefault.entry_point actionOK = true ∧
    '#' ∉ behOK.executed_result ∧ '#' ∉ behOK.time_usage ∧
    '#' ∉ tddUnittestOutput tbehOK ∧
    ∃ r, (TestDrivenEvaluator.step envDefault actionOK behOK tbehOK).result = some r ∧
      r.observation = ("# Unit Test Output\n").data ++ tddUnittestOutput tbehOK
        ++ ("\n\n---\n\n").data ++ spaceHeader ++ ("\n\n").data
        ++ memoryUsageString behOK.peak_memory ++ ("\n\n---\n\n").data
        ++ ("# Time complexity\n\n").data ++ behOK.time_usage ∧
      ¬ ("# Output").data <:+: r.observation :=
  ⟨by decide, by decide, by decide, by decide,
    c10_splice envDefault actionOK behOK tbehOK (by decide) rfl rfl rfl
      (by decide) (by decide) (by decide)⟩

end PerfEnv
